import Mathlib

/-!
Verification of the ingestion/conversion pipeline of the graphnet repository
(`src/gnn_reco/data/sqlite_dataconverter.py`).

The Python module is shallowly embedded below: every definition mirrors one
function of the source file (names are kept where Lean allows).  Python
exceptions are modelled with `Except String`, Python dictionaries with
association lists, pandas data frames of extracted fragments with lists of
`Fragment`s, and the numpy helpers (`np.array_split`, `np.arange`) with
executable Lean counterparts of the same splitting arithmetic.  The random
shuffle performed by `pandas.DataFrame.sample(frac = 1)` is modelled by an
explicit permutation parameter, since the only facts used about it are that
it selects rows of the paired frame.
-/

namespace Graphnet

/-- Values stored in an extraction dictionary.  The physics payload is
irrelevant to the pipeline; the model only distinguishes Python `None`
(`PyVal.null`) from genuine data, which is what `isempty` inspects. -/
inductive PyVal where
  | null : PyVal
  | num : Int → PyVal
  | arr : List Int → PyVal
deriving DecidableEq, Repr

/-- A Python extraction dictionary: ordered association list of column name
to value, as produced by the external `I3Extractor`. -/
abbrev Extraction := List (String × PyVal)

/-- One tabular fragment after `apply_event_no`: the extracted columns
together with the `event_no` column value assigned to the frame. -/
abbrev Fragment := Extraction × Nat

/-- `apply_event_no` (source lines 16-30): attaches
`event_no_list[event_counter]` to the extraction.  Indexing a numpy array
out of bounds raises, modelled as `Except.error "IndexError"`. -/
def apply_event_no (extraction : Extraction) (event_no_list : List Nat)
    (event_counter : Nat) : Except String Fragment :=
  match event_no_list[event_counter]? with
  | Option.some e => Except.ok (extraction, e)
  | Option.none => Except.error "IndexError"

/-- Does the character sequence `pat` occur inside `s`?  (Model of Python's
`in` operator on strings.) -/
def leadsList : List Char → List Char → Bool
  | [], _ => true
  | _ :: _, [] => false
  | p :: ps, c :: cs => if p = c then leadsList ps cs else false

/-- Occurrence of `pat` as a contiguous subsequence of `s`. -/
def containsSeq (pat : List Char) : List Char → Bool
  | [] => pat.isEmpty
  | c :: rest => leadsList pat (c :: rest) || containsSeq pat rest

/-- Python `pat in s` on strings. -/
def strContains (s pat : String) : Bool :=
  containsSeq pat.toList s.toList

/-- Python `s.lower()`, as the lowercased character sequence. -/
def lowerChars (s : String) : List Char :=
  s.toList.map Char.toLower

/-- `is_i3` (source lines 32-38): a file is an i3 event file unless its
lowercased name contains the calibration markers `gcd` or `geo`. -/
def is_i3 (file : String) : Bool :=
  if containsSeq "gcd".toList (lowerChars file) then false
  else if containsSeq "geo".toList (lowerChars file) then false
  else true

/-- `has_extension` (source lines 39-56): counts the accepted extensions
occurring in the filename and accepts when the count is positive. -/
def has_extension (file : String) (extensions : List String) : Bool :=
  0 < extensions.countP (fun extension => strContains file extension)

/-- `isempty` (source lines 190-194): `features['dom_x'] != None`.  A
missing `dom_x` key raises `KeyError` (uncaught in the source), a present
key compares against `None`. -/
def isempty (features : Extraction) : Except String Bool :=
  match features.lookup "dom_x" with
  | Option.some v => if v ≠ PyVal.null then Except.ok false else Except.ok true
  | Option.none => Except.error "KeyError"

/-! ### The event-number allocator

`_processfiles` (line 321) runs
`np.array_split(np.arange(0, 99999999, 1), workers)`.
`np.arange(0, U, 1)` is `List.range U`; `np.array_split` cuts a sequence of
length `l` into `n` consecutive sections, the first `l % n` of size
`l / n + 1` and the remaining ones of size `l / n`. -/

/-- Section sizes used by `np.array_split` on a length-`len` array. -/
def splitSizes (len n : Nat) : List Nat :=
  (List.range n).map (fun i => if i < len % n then len / n + 1 else len / n)

/-- Cut `l` into consecutive chunks of the given sizes. -/
def takeChunks : List Nat → List α → List (List α)
  | [], _ => []
  | s :: ss, l => l.take s :: takeChunks ss (l.drop s)

/-- `np.array_split(l, n)`. -/
def array_split (l : List α) (n : Nat) : List (List α) :=
  takeChunks (splitSizes l.length n) l

/-- The per-worker event-number ranges of `_processfiles` (line 321). -/
def event_nos (workers : Nat) : List (List Nat) :=
  array_split (List.range 99999999) workers

deriving instance DecidableEq for Except

/-! ### The extraction worker (`parallel_extraction`, source lines 217-266)

One iteration of the `while i3_file.more()` loop either fails inside
`i3_file.pop_physics()` — that exception is caught and the frame skipped —
or yields a physics frame on which `process_frame` is called *outside* the
`try` block.  A `PopEvent` records which of the two happened and, for a
popped frame, the outcome of `process_frame` (the external extractor may
itself raise, which the source does not catch). -/
inductive PopEvent where
  | popError : PopEvent
  | phys : Except String (Extraction × Extraction × Extraction) → PopEvent
deriving DecidableEq, Repr

/-- One unit of a worker's input: an event file together with its paired
calibration file.  `openFail` models `load_geospatial_data(gcd_files[u])`
or `dataio.I3File(input_files[u], "r")` raising (source lines 232-233);
`events` is the sequence of physics-frame pop attempts. -/
structure I3FileModel where
  openFail : Bool
  events : List PopEvent
deriving DecidableEq, Repr

/-- One call of `save_to_sql` (source lines 268-275): the three buffers are
written to the fresh shard database `worker-<id>-<output_count>.db`.  The
truth table is always written, the `RetroReco` table only when the retro
buffer is non-empty, the pulsemap table always. -/
structure Flush where
  id : String
  output_count : Nat
  features : List Fragment
  truth : List Fragment
  retro : List Fragment
deriving DecidableEq, Repr

/-- `save_to_sql` (source lines 268-275), abstracted to the shard record it
writes. -/
def save_to_sql (feature_big truth_big retro_big : List Fragment)
    (id : String) (output_count : Nat) : Flush :=
  { id := id, output_count := output_count, features := feature_big,
    truth := truth_big, retro := retro_big }

/-- Filename of the shard database written by `save_to_sql`
(`'sqlite:///' + outdir + '/%s/tmp/worker-%s-%s.db'`). -/
def shard_filename (f : Flush) : String :=
  "worker-" ++ f.id ++ "-" ++ Nat.repr f.output_count ++ ".db"

/-- The in-memory state of one worker while it runs the frame loop of
`parallel_extraction`: the three buffers, the id counter, the shard index
and the shards already written to disk. -/
structure WState where
  event_counter : Nat
  feature_big : List Fragment
  truth_big : List Fragment
  retro_big : List Fragment
  output_count : Nat
  flushes : List Flush
deriving DecidableEq, Repr

/-- Worker state on entry of `parallel_extraction` (source lines 224-229). -/
def initState : WState :=
  { event_counter := 0, feature_big := [], truth_big := [], retro_big := [],
    output_count := 0, flushes := [] }

/-- One iteration of the `while i3_file.more()` loop (source lines 235-258).
A pop failure sets `frame = False` and the iteration does nothing; a popped
frame runs `process_frame` (uncaught on failure), appends the truth
fragment, the retro fragment when `len(retros) > 0`, the feature fragment
unless `isempty(features)`, advances `event_counter`, and flushes all three
buffers to a new shard when the truth buffer has reached `max_dict_size`. -/
def processEvent (event_no_list : List Nat) (max_dict_size : Nat) (id : String)
    (st : WState) (ev : PopEvent) : Except String WState :=
  match ev with
  | PopEvent.popError => Except.ok st
  | PopEvent.phys (Except.error e) => Except.error e
  | PopEvent.phys (Except.ok (truths, features, retros)) =>
    match apply_event_no truths event_no_list st.event_counter with
    | Except.error e => Except.error e
    | Except.ok truth =>
      match (if 0 < retros.length then
               match apply_event_no retros event_no_list st.event_counter with
               | Except.ok retro => Except.ok (st.retro_big ++ [retro])
               | Except.error e => Except.error e
             else Except.ok st.retro_big) with
      | Except.error e => Except.error e
      | Except.ok retro_big =>
        match isempty features with
        | Except.error e => Except.error e
        | Except.ok is_empty =>
          match (if is_empty = false then
                   match apply_event_no features event_no_list st.event_counter with
                   | Except.ok fr => Except.ok (st.feature_big ++ [fr])
                   | Except.error e => Except.error e
                 else Except.ok st.feature_big) with
          | Except.error e => Except.error e
          | Except.ok feature_big =>
            if (st.truth_big ++ [truth]).length ≥ max_dict_size then
              Except.ok
                { event_counter := st.event_counter + 1, feature_big := [],
                  truth_big := [], retro_big := [],
                  output_count := st.output_count + 1,
                  flushes := st.flushes ++
                    [save_to_sql feature_big (st.truth_big ++ [truth]) retro_big
                      id st.output_count] }
            else
              Except.ok
                { event_counter := st.event_counter + 1, feature_big := feature_big,
                  truth_big := st.truth_big ++ [truth], retro_big := retro_big,
                  output_count := st.output_count, flushes := st.flushes }

/-- The frame loop over one opened file.  An uncaught exception aborts the
worker; the shards flushed so far remain on disk, which the pair result
records. -/
def runEvents (event_no_list : List Nat) (max_dict_size : Nat) (id : String) :
    WState → List PopEvent → WState × Option String
  | st, [] => (st, Option.none)
  | st, ev :: rest =>
    match processEvent event_no_list max_dict_size id st ev with
    | Except.ok st2 => runEvents event_no_list max_dict_size id st2 rest
    | Except.error e => (st, Option.some e)

/-- The `for u in range(len(input_files))` loop (source lines 231-259).
Opening the calibration data or the event file raises before any frame of
that file is processed, aborting the worker's remaining work. -/
def runFiles (event_no_list : List Nat) (max_dict_size : Nat) (id : String) :
    WState → List I3FileModel → WState × Option String
  | st, [] => (st, Option.none)
  | st, file :: rest =>
    if file.openFail then (st, Option.some "OSError")
    else
      match runEvents event_no_list max_dict_size id st file.events with
      | (st2, Option.none) => runFiles event_no_list max_dict_size id st2 rest
      | (st2, Option.some e) => (st2, Option.some e)

/-- `parallel_extraction` (source lines 217-266): run every assigned file,
then flush any remaining non-empty truth buffer (lines 260-265).  Returns
the shard files written to disk and the uncaught exception, if any, that
terminated the worker. -/
def parallel_extraction (event_no_list : List Nat) (max_dict_size : Nat)
    (id : String) (input_files : List I3FileModel) : List Flush × Option String :=
  match runFiles event_no_list max_dict_size id initState input_files with
  | (st, Option.some e) => (st.flushes, Option.some e)
  | (st, Option.none) =>
    if st.truth_big.length > 0 then
      (st.flushes ++
        [save_to_sql st.feature_big st.truth_big st.retro_big id st.output_count],
       Option.none)
    else (st.flushes, Option.none)

/-- Invariant of the worker's frame loop: the truth buffer stays strictly
below the batch threshold, the shard index counts the shards written, the
shards on disk are numbered `0, 1, 2, ...` in order, every shard so far
carries this worker's id, exactly `B` truth rows, and only event numbers
from the worker's own range, and the buffered truth rows also only carry
event numbers from the range. -/
def WInv (L : List Nat) (B : Nat) (id : String) (st : WState) : Prop :=
  st.truth_big.length < B ∧
  st.output_count = st.flushes.length ∧
  st.flushes.map Flush.output_count = List.range st.flushes.length ∧
  (∀ f ∈ st.flushes, f.id = id ∧ f.truth.length = B ∧ ∀ t ∈ f.truth, t.2 ∈ L) ∧
  (∀ t ∈ st.truth_big, t.2 ∈ L)

/-- All pulsemap fragments a worker state accounts for: those already
flushed to shards plus the in-memory buffer. -/
def allFeatures (st : WState) : List Fragment :=
  (st.flushes.map Flush.features).flatten ++ st.feature_big

/-- All truth fragments a worker state accounts for: those already flushed
to shards plus the in-memory buffer. -/
def allTruth (st : WState) : List Fragment :=
  (st.flushes.map Flush.truth).flatten ++ st.truth_big

/-! ### File discovery (`find_i3_files`, `pairwiseshuffle`, `find_files`,
source lines 66-167)

A directory is modelled by the file names `os.walk` yields at its root and
in each of its immediate subfolders (the hardcoded two-level IceCube
convention of `find_i3_files`). -/

/-- An immediate subfolder and the plain files inside it. -/
structure SubDir where
  name : String
  files : List String
deriving DecidableEq, Repr

/-- A root directory passed to `find_i3_files`: its path, the plain files
at its root, and its immediate subfolders. -/
structure Dir where
  path : String
  root_files : List String
  folders : List SubDir
deriving DecidableEq, Repr

/-- The directory levels `find_i3_files` visits, each as
(directory path, files there): first the root itself (lines 80-96), then
every immediate subfolder (lines 97-114).  The loop body is identical for
the root and for each folder. -/
def dirLevels (d : Dir) : List (String × List String) :=
  (d.path, d.root_files) ::
    d.folders.map (fun folder => (d.path ++ "/" ++ folder.name, folder.files))

/-- One iteration of the classification loop of a directory level (source
lines 84-90 and 102-108): a file with an accepted extension joins the i3
list or the gcd list (also updating the `gcd_root`/`gcd_folder` variable);
other files are ignored. -/
def levelStep (dirpath : String) (extensions : List String)
    (acc : List String × List String × Option String) (file : String) :
    List String × List String × Option String :=
  if has_extension file extensions then
    if is_i3 file then (acc.1 ++ [dirpath ++ "/" ++ file], acc.2.1, acc.2.2)
    else (acc.1, acc.2.1 ++ [dirpath ++ "/" ++ file],
          Option.some (dirpath ++ "/" ++ file))
  else acc

/-- The classification loop of one directory level (source lines 84-90 and
102-108): returns the i3 file paths, the gcd file paths, and the last gcd
path assigned to the `gcd_root`/`gcd_folder` variable (`Option.none` when
no gcd file was seen). -/
def levelLists (dirpath : String) (extensions : List String)
    (files : List String) : List String × List String × Option String :=
  files.foldl (levelStep dirpath extensions) ([], [], Option.none)

/-- The i3 files of one level. -/
def level_i3s (dirpath : String) (extensions : List String)
    (files : List String) : List String :=
  (levelLists dirpath extensions files).1

/-- The gcd files of one level, in listing order. -/
def level_gcds (dirpath : String) (extensions : List String)
    (files : List String) : List String :=
  (levelLists dirpath extensions files).2.1

/-- One directory level of `find_i3_files`: default the gcd to `gcd_rescue`
when none was found (lines 91-92, 109-110), then pad the gcd list with the
(defaulted) last gcd up to the i3 count (lines 93-94, 111-112). -/
def levelPairs (gcd_rescue dirpath : String) (extensions : List String)
    (files : List String) : List String × List String :=
  match levelLists dirpath extensions files with
  | (i3files, gcds, gcd_last) =>
    (i3files,
     gcds ++ List.replicate (i3files.length - gcds.length)
       (gcd_last.getD gcd_rescue))

/-- The gcd list a level contributes to `GCD_list` after the rescue default
and the padding (the second component of `levelPairs`). -/
def level_gcd_list (gcd_rescue dirpath : String) (extensions : List String)
    (files : List String) : List String :=
  (levelPairs gcd_rescue dirpath extensions files).2

/-- The two accumulated lists `files_list`, `GCD_list` of `find_i3_files`
just before the final `pairwiseshuffle` (lines 78-114). -/
def find_i3_files_core (d : Dir) (extensions : List String)
    (gcd_rescue : String) : List String × List String :=
  (dirLevels d).foldl
    (fun acc level =>
      match levelPairs gcd_rescue level.1 extensions level.2 with
      | (i3files, gcds) => (acc.1 ++ i3files, acc.2 ++ gcds))
    ([], [])

/-- `pairwiseshuffle` (source lines 119-134): build the two-column data
frame, permute its rows (`df.sample(frac = 1)`, modelled by the explicit
row selection `perm`), and read the columns back.  Constructing the frame
from lists of different lengths raises `ValueError`. -/
def pairwiseshuffle (perm : List Nat) (files_list gcd_list : List String) :
    Except String (List String × List String) :=
  if files_list.length = gcd_list.length then
    match (perm.filterMap (fun i => (files_list.zip gcd_list).get? i)) with
    | rows => Except.ok (rows.map Prod.fst, rows.map Prod.snd)
  else Except.error "ValueError"

/-- `find_i3_files` (source lines 66-117). -/
def find_i3_files (perm : List Nat) (d : Dir) (extensions : List String)
    (gcd_rescue : String) : Except String (List String × List String) :=
  match find_i3_files_core d extensions gcd_rescue with
  | (files_list, GCD_list) => pairwiseshuffle perm files_list GCD_list

/-- The `for path in paths` loop of `find_files` (source lines 159-162). -/
def find_files_loop (gcd_rescue : String) (extensions : List String) :
    List (List Nat × Dir) → List String → List String →
    Except String (List String × List String)
  | [], input_files, gcd_files => Except.ok (input_files, gcd_files)
  | pd :: rest, input_files, gcd_files =>
    match find_i3_files pd.1 pd.2 extensions gcd_rescue with
    | Except.ok fg =>
      find_files_loop gcd_rescue extensions rest (input_files ++ fg.1)
        (gcd_files ++ fg.2)
    | Except.error e => Except.error e

/-- `find_files` (source lines 137-167): collect each path's discovery,
then — only when any input file was found — shuffle the global pairing once
more and persist the manifest (`save_filenames`, a pure side effect whose
content is the returned `input_files` list). -/
def find_files (gperm : List Nat) (dirs : List (List Nat × Dir))
    (gcd_rescue : String) (extensions : List String) :
    Except String (List String × List String) :=
  match find_files_loop gcd_rescue extensions dirs [] [] with
  | Except.error e => Except.error e
  | Except.ok (input_files, gcd_files) =>
    if input_files.length > 0 then pairwiseshuffle gperm input_files gcd_files
    else Except.ok (input_files, gcd_files)

/-! ### Schema inference and final-database creation
(`_extract_column_names`, `_create_table`, `_attach_index`,
`_create_empty_tables`, source lines 356-451) -/

/-- A shard database as the merge step reads it back from disk: the column
headers of its `truth` and pulsemap tables, and the column header of its
`RetroReco` table when that table exists (`select * from RetroReco` raises
on a shard without it). -/
structure ShardDB where
  truth_columns : List String
  pulse_map_columns : List String
  retro : Option (List String)
deriving DecidableEq, Repr

/-- The `for db_file in db_files` scan of `_extract_column_names` (source
lines 367-376): querying a shard without a `RetroReco` table raises,
resetting `retro_columns` to `[]`; the first successful query with a
non-empty header breaks the loop. -/
def retro_scan : List ShardDB → List String → List String
  | [], acc => acc
  | db :: rest, _acc =>
    match db.retro with
    | Option.some retro_columns =>
      if retro_columns.length > 0 then retro_columns
      else retro_scan rest retro_columns
    | Option.none => retro_scan rest []

/-- `_extract_column_names` (source lines 356-377): truth and pulsemap
headers are read from `db_files[0]` (an empty list would raise an index
error, modelled as `Option.none`); the retro header comes from the scan. -/
def extract_column_names (db_files : List ShardDB) :
    Option (List String × List String × List String) :=
  match db_files with
  | [] => Option.none
  | db :: _ =>
    Option.some (db.truth_columns, db.pulse_map_columns, retro_scan db_files [])

/-- The first shard actually holding a `RetroReco` table, in scan order. -/
def firstRetro (db_files : List ShardDB) : Option (List String) :=
  db_files.findSome? (fun db => db.retro)

/-- The column declaration `_create_table` builds for one column (source
lines 406-425): `event_no` becomes the integer primary key unless the table
is a pulse map, where it is merely declared non-null; every other column is
typed `FLOAT`. -/
def columnDecl (column : String) (is_pulse_map : Bool) : String :=
  if column = "event_no" then
    if is_pulse_map = false then column ++ " INTEGER PRIMARY KEY NOT NULL"
    else column ++ " NOT NULL"
  else column ++ " FLOAT"

/-- A `CREATE TABLE` statement issued against the final database, by table
name and per-column declarations in order. -/
structure CreatedTable where
  table_name : String
  column_decls : List String
deriving DecidableEq, Repr

/-- A `CREATE INDEX` statement issued by `_attach_index` (source lines
386-395): `CREATE INDEX event_no_{table} ON {table} (event_no)`. -/
structure IndexCreation where
  table_name : String
  column : String
deriving DecidableEq, Repr

/-- `_attach_index` (source lines 386-395). -/
def attach_index (table_name : String) : IndexCreation :=
  { table_name := table_name, column := "event_no" }

/-- `_create_table` (source lines 397-432): the created table, plus the
index attached to `event_no` when the table is a pulse map. -/
def create_table (table_name : String) (columns : List String)
    (is_pulse_map : Bool) : CreatedTable × List IndexCreation :=
  ({ table_name := table_name,
     column_decls := columns.map (fun column => columnDecl column is_pulse_map) },
   if is_pulse_map then [attach_index table_name] else [])

/-- Everything `_create_empty_tables` creates in the final database. -/
structure FinalSchema where
  tables : List CreatedTable
  indexes : List IndexCreation
deriving DecidableEq, Repr

/-- `_create_empty_tables` (source lines 434-451): the truth table, then —
only when the inferred retro header has more than one column — the
`RetroReco` table (both with `is_pulse_map = False`), then the pulsemap
table with `is_pulse_map = True`. -/
def create_empty_tables (pulse_map : String)
    (truth_columns pulse_map_columns retro_columns : List String) : FinalSchema :=
  if retro_columns.length > 1 then
    { tables := [(create_table "truth" truth_columns false).1,
                 (create_table "RetroReco" retro_columns false).1,
                 (create_table pulse_map pulse_map_columns true).1],
      indexes := (create_table "truth" truth_columns false).2 ++
                 (create_table "RetroReco" retro_columns false).2 ++
                 (create_table pulse_map pulse_map_columns true).2 }
  else
    { tables := [(create_table "truth" truth_columns false).1,
                 (create_table pulse_map pulse_map_columns true).1],
      indexes := (create_table "truth" truth_columns false).2 ++
                 (create_table pulse_map pulse_map_columns true).2 }

/-- Appending rows into a table whose `event_no` column is declared
`INTEGER PRIMARY KEY`: sqlite rejects the insert as soon as a row repeats a
key already present.  Rows are identified by their `event_no` value. -/
def insert_pk_rows (table : List Nat) : List Nat → Except String (List Nat)
  | [] => Except.ok table
  | r :: rest =>
    if r ∈ table then Except.error "IntegrityError"
    else insert_pk_rows (table ++ [r]) rest

/-- The `_submit_retro` appends of `_merge_temporary_databases` (source
lines 518-535): every shard's `RetroReco` rows (given by their `event_no`
keys) are appended in shard order into the final `RetroReco` table. -/
def merge_retro : List (List Nat) → List Nat → Except String (List Nat)
  | [], table => Except.ok table
  | rows :: rest, table =>
    match insert_pk_rows table rows with
    | Except.ok table2 => merge_retro rest table2
    | Except.error e => Except.error e

/-! ### Concrete test inputs used below -/

/-- A frame whose extraction succeeds, with a non-null `dom_x` feature. -/
def okFrame : PopEvent :=
  PopEvent.phys (Except.ok
    ([("energy", PyVal.num 1)], [("dom_x", PyVal.num 2)], []))

/-- A popped frame on which the external extractor raises. -/
def extractionErrorFrame : PopEvent :=
  PopEvent.phys (Except.error "ExtractionError")

/-- A frame whose pulse-series extraction lacks the `dom_x` key
entirely. -/
def noDomXFrame : PopEvent :=
  PopEvent.phys (Except.ok
    ([("energy", PyVal.num 1)], [("charge", PyVal.num 3)], []))

/-- An event file whose open (or whose calibration load) fails. -/
def openFailFile : I3FileModel := { openFail := true, events := [] }

/-! ### The orchestrator (`SQLiteDataConverter._processfiles`,
source lines 304-337) -/

/-- How a `_processfiles` run that raised no exception ended: either the
no-files diagnostic was printed and the run stopped before any extraction,
or the worker pool was dispatched and — its per-worker outcomes never
inspected (`map_async` without reading the result) — `_merge_databases`
was entered with whatever the workers left behind. -/
inductive Outcome where
  | noFiles : Outcome
  | ranMerge : List (List Flush × Option String) → Outcome
deriving DecidableEq, Repr

/-- `_processfiles` (source lines 304-337): discover files, and if any were
found cap the worker count by the file count, split the files and the
event-number space with `np.array_split`, run every worker
(`Pool.map_async` followed by `close`/`join`, results discarded), and
proceed to the merge.  `fs` resolves a discovered event-file path to the
modelled content of that file and of its paired calibration data. -/
def processfiles (workers max_dict_size : Nat) (fs : String → I3FileModel)
    (gperm : List Nat) (dirs : List (List Nat × Dir)) (gcd_rescue : String)
    (extensions : List String) : Except String Outcome :=
  match find_files gperm dirs gcd_rescue extensions with
  | Except.error e => Except.error e
  | Except.ok (input_files, _gcd_files) =>
    if input_files.length > 0 then
      match (if workers > input_files.length then input_files.length
             else workers) with
      | w =>
        match array_split input_files w, event_nos w with
        | file_list, enos =>
          Except.ok (Outcome.ranMerge ((List.range w).map (fun i =>
            parallel_extraction (enos.getD i []) max_dict_size (Nat.repr i)
              ((file_list.getD i []).map fs))))
    else Except.ok Outcome.noFiles

end Graphnet

namespace Graphnet

theorem takeChunks_length (ss : List Nat) (l : List α) :
    (takeChunks ss l).length = ss.length := by
  induction ss generalizing l with
  | nil => rfl
  | cons s ss ih => simp [takeChunks, ih]

theorem takeChunks_flatten (ss : List Nat) (l : List α) :
    (takeChunks ss l).flatten = l.take ss.sum := by
  induction ss generalizing l with
  | nil => simp [takeChunks]
  | cons s ss ih =>
    simp only [takeChunks, List.flatten_cons, ih, List.sum_cons]
    exact (List.take_add l s ss.sum).symm

theorem splitSizes_length (len n : Nat) : (splitSizes len n).length = n := by
  simp [splitSizes]

theorem range_map_ite_sum (n q m : Nat) :
    ((List.range n).map (fun i => if i < m then q + 1 else q)).sum
      = n * q + min m n := by
  induction n with
  | zero => simp
  | succ n ih =>
    rw [List.range_succ, List.map_append, List.sum_append, ih]
    by_cases h : n < m
    · have hmin : min m n = n := by omega
      have hmin' : min m (n + 1) = n + 1 := by omega
      simp only [List.map_cons, List.map_nil, List.sum_cons, List.sum_nil, if_pos h,
        hmin, hmin']
      have : (n + 1) * q = n * q + q := by ring
      omega
    · have hmin : min m n = m := by omega
      have hmin' : min m (n + 1) = m := by omega
      simp only [List.map_cons, List.map_nil, List.sum_cons, List.sum_nil, if_neg h,
        hmin, hmin']
      have : (n + 1) * q = n * q + q := by ring
      omega

theorem splitSizes_sum (len n : Nat) (hn : 1 ≤ n) :
    (splitSizes len n).sum = len := by
  unfold splitSizes
  rw [range_map_ite_sum]
  have hmod : len % n < n := Nat.mod_lt _ (by omega)
  have hmin : min (len % n) n = len % n := by omega
  rw [hmin]
  exact Nat.div_add_mod len n

theorem array_split_flatten (l : List α) (n : Nat) (hn : 1 ≤ n) :
    (array_split l n).flatten = l := by
  unfold array_split
  rw [takeChunks_flatten, splitSizes_sum _ _ hn, List.take_length]

theorem array_split_length (l : List α) (n : Nat) :
    (array_split l n).length = n := by
  unfold array_split
  rw [takeChunks_length, splitSizes_length]

theorem take_range'_eq (n a m : Nat) :
    (List.range' a m).take n = List.range' a (min n m) := by
  induction m generalizing a n with
  | zero => simp
  | succ m ih =>
    cases n with
    | zero => simp
    | succ n =>
      simp only [List.range'_succ, List.take_succ_cons, ih]
      have : min (n + 1) (m + 1) = min n m + 1 := by omega
      rw [this, List.range'_succ]

theorem drop_range'_eq (n a m : Nat) :
    (List.range' a m).drop n = List.range' (a + n) (m - n) := by
  induction m generalizing a n with
  | zero => simp
  | succ m ih =>
    cases n with
    | zero => simp
    | succ n =>
      simp only [List.range'_succ, List.drop_succ_cons, ih]
      have h1 : a + 1 + n = a + (n + 1) := by omega
      have h2 : m - n = m + 1 - (n + 1) := by omega
      rw [h1, h2]

theorem takeChunks_range'_mem (ss : List Nat) (a m : Nat) (c : List Nat)
    (hc : c ∈ takeChunks ss (List.range' a m)) :
    ∃ s, c = List.range' s c.length := by
  induction ss generalizing a m with
  | nil => simp [takeChunks] at hc
  | cons s ss ih =>
    simp only [takeChunks, List.mem_cons] at hc
    cases hc with
    | inl h =>
      refine ⟨a, ?_⟩
      rw [h, take_range'_eq, List.length_range']
    | inr h =>
      rw [drop_range'_eq] at h
      exact ih _ _ h

theorem sorted_flatten_pairwise (L : List (List Nat))
    (h : L.flatten.Pairwise (· < ·)) :
    L.Pairwise (fun a b => ∀ x ∈ a, ∀ y ∈ b, x < y) := by
  induction L with
  | nil => exact List.Pairwise.nil
  | cons c rest ih =>
    rw [List.flatten_cons, List.pairwise_append] at h
    refine List.Pairwise.cons ?_ (ih h.2.1)
    intro b hb x hx y hy
    exact h.2.2 x hx y (List.mem_flatten.2 ⟨b, hb, hy⟩)

/-! ### Worker-loop invariants -/

theorem apply_event_no_ok {ex : Extraction} {L : List Nat} {c : Nat}
    {fr : Fragment} (h : apply_event_no ex L c = Except.ok fr) :
    L[c]? = Option.some fr.2 ∧ fr = (ex, fr.2) := by
  unfold apply_event_no at h
  cases hg : L[c]? with
  | none => rw [hg] at h; exact absurd h (by simp)
  | some e => rw [hg] at h; cases h; exact ⟨rfl, rfl⟩

/-- Every state reached by a successful `processEvent` step is either
unchanged (a caught pop failure) or advances the counter and either
flushes the extended truth buffer (when it reached `max_dict_size`) or
keeps it. -/
theorem processEvent_ok_shape {L : List Nat} {B : Nat} {id : String}
    {st st2 : WState} {ev : PopEvent}
    (hok : processEvent L B id st ev = Except.ok st2) :
    st2 = st ∨
    ∃ truths e fb rb,
      L[st.event_counter]? = Option.some e ∧
      ((st.truth_big.length + 1 ≥ B ∧
        st2 = ⟨st.event_counter + 1, [], [], [], st.output_count + 1,
               st.flushes ++
                 [⟨id, st.output_count, fb, st.truth_big ++ [(truths, e)], rb⟩]⟩) ∨
       (st.truth_big.length + 1 < B ∧
        st2 = ⟨st.event_counter + 1, fb, st.truth_big ++ [(truths, e)], rb,
               st.output_count, st.flushes⟩)) := by
  cases ev with
  | popError =>
    simp only [processEvent] at hok
    cases hok
    exact Or.inl rfl
  | phys res =>
    cases res with
    | error e => simp [processEvent] at hok
    | ok trip =>
      obtain ⟨truths, features, retros⟩ := trip
      right
      cases hget : L[st.event_counter]? with
      | none => simp [processEvent, apply_event_no, hget] at hok
      | some e =>
        simp only [processEvent, apply_event_no, hget] at hok
        refine ⟨truths, e, ?_⟩
        split at hok
        · exact absurd hok (by simp)
        · split at hok
          · exact absurd hok (by simp)
          · split at hok
            · exact absurd hok (by simp)
            · split at hok
              · cases hok
                exact ⟨_, _, rfl, Or.inl ⟨by simp_all [List.length_append], rfl⟩⟩
              · cases hok
                refine ⟨_, _, rfl, Or.inr ⟨?_, rfl⟩⟩
                simp only [List.length_append, List.length_cons,
                  List.length_nil] at *
                omega

theorem processEvent_WInv {L : List Nat} {B : Nat} {id : String}
    {st st2 : WState} {ev : PopEvent} (hB : 0 < B) (hinv : WInv L B id st)
    (hok : processEvent L B id st ev = Except.ok st2) : WInv L B id st2 := by
  obtain ⟨h1, h2, h3, h4, h5⟩ := hinv
  rcases processEvent_ok_shape hok with heq | ⟨truths, e, fb, rb, hget, hcase⟩
  · exact heq ▸ ⟨h1, h2, h3, h4, h5⟩
  have hmem : e ∈ L := List.get?_mem (by rw [List.get?_eq_getElem?]; exact hget)
  rcases hcase with ⟨hge, heq⟩ | ⟨hlt, heq⟩
  · subst heq
    refine ⟨hB, ?_, ?_, ?_, ?_⟩
    · simp [h2, List.length_append]
    · simp only [List.map_append, List.map_cons, List.map_nil, h3, h2,
        List.length_append, List.length_cons, List.length_nil]
      rw [List.range_succ]
    · intro f hf
      rcases List.mem_append.1 hf with hf | hf
      · exact h4 f hf
      · rcases List.mem_singleton.1 hf with rfl
        refine ⟨rfl, ?_, ?_⟩
        · simp only [List.length_append, List.length_cons, List.length_nil]
          omega
        · intro t ht
          rcases List.mem_append.1 ht with ht | ht
          · exact h5 t ht
          · rcases List.mem_singleton.1 ht with rfl
            exact hmem
    · intro t ht
      simp at ht
  · subst heq
    refine ⟨by simpa [List.length_append] using hlt, h2, h3, h4, ?_⟩
    intro t ht
    rcases List.mem_append.1 ht with ht | ht
    · exact h5 t ht
    · rcases List.mem_singleton.1 ht with rfl
      exact hmem

theorem runEvents_WInv {L : List Nat} {B : Nat} {id : String} {st : WState}
    (evs : List PopEvent) (hB : 0 < B) (hinv : WInv L B id st) :
    WInv L B id (runEvents L B id st evs).1 := by
  induction evs generalizing st with
  | nil => exact hinv
  | cons ev rest ih =>
    simp only [runEvents]
    cases hstep : processEvent L B id st ev with
    | ok st2 => exact ih (processEvent_WInv hB hinv hstep)
    | error e => exact hinv

theorem runFiles_WInv {L : List Nat} {B : Nat} {id : String} {st : WState}
    (files : List I3FileModel) (hB : 0 < B) (hinv : WInv L B id st) :
    WInv L B id (runFiles L B id st files).1 := by
  induction files generalizing st with
  | nil => exact hinv
  | cons file rest ih =>
    simp only [runFiles]
    by_cases hopen : file.openFail
    · simp only [hopen, if_true]
      exact hinv
    · simp only [hopen, if_false]
      cases hrun : runEvents L B id st file.events with
      | mk st2 err =>
        have h2 : WInv L B id st2 := by
          have := @runEvents_WInv L B id st file.events hB hinv
          rwa [hrun] at this
        cases err with
        | none => exact ih h2
        | some e => exact h2

theorem initState_WInv {L : List Nat} {B : Nat} {id : String} (hB : 0 < B) :
    WInv L B id initState := by
  refine ⟨hB, rfl, rfl, ?_, ?_⟩ <;> intro x hx <;> simp [initState] at hx

/-- The shard files a worker leaves on disk: each carries the worker's id,
between `1` and `B` truth rows, only event numbers from the worker's own
range; the shard indices are exactly `0, ..., k-1` in order; and every
shard except possibly the last holds exactly `B` truth rows. -/
theorem parallel_extraction_facts (L : List Nat) (B : Nat) (id : String)
    (files : List I3FileModel) (hB : 0 < B) :
    (∀ f ∈ (parallel_extraction L B id files).1,
       f.id = id ∧ 1 ≤ f.truth.length ∧ f.truth.length ≤ B ∧
         ∀ t ∈ f.truth, t.2 ∈ L) ∧
    ((parallel_extraction L B id files).1.map Flush.output_count
       = List.range (parallel_extraction L B id files).1.length) ∧
    (∀ i f, ((parallel_extraction L B id files).1.get? i = Option.some f →
       i + 1 < (parallel_extraction L B id files).1.length →
       f.truth.length = B)) := by
  have hinv := @runFiles_WInv L B id initState files hB (@initState_WInv L B id hB)
  cases hrun : runFiles L B id initState files with
  | mk st err =>
    rw [hrun] at hinv
    simp only at hinv
    obtain ⟨h1, h2, h3, h4, h5⟩ := hinv
    have hcases :
        (parallel_extraction L B id files).1 = st.flushes ∨
        ((parallel_extraction L B id files).1
            = st.flushes ++
              [save_to_sql st.feature_big st.truth_big st.retro_big id
                st.output_count] ∧ 0 < st.truth_big.length) := by
      unfold parallel_extraction
      rw [hrun]
      cases err with
      | some e => exact Or.inl rfl
      | none =>
        simp only
        by_cases hlen : st.truth_big.length > 0
        · rw [if_pos hlen]
          exact Or.inr ⟨rfl, hlen⟩
        · rw [if_neg hlen]
          exact Or.inl rfl
    rcases hcases with hfl | ⟨hfl, hpos⟩
    · rw [hfl]
      refine ⟨?_, h3 ▸ ?_, ?_⟩
      · intro f hf
        obtain ⟨hid, hlen, hmem⟩ := h4 f hf
        exact ⟨hid, by omega, by omega, hmem⟩
      · rfl
      · intro i f hget hi
        exact (h4 f (List.get?_mem hget)).2.1
    · rw [hfl]
      constructor
      · intro f hf
        rcases List.mem_append.1 hf with hf | hf
        · obtain ⟨hid, hlen, hmem⟩ := h4 f hf
          exact ⟨hid, by omega, by omega, hmem⟩
        · rcases List.mem_singleton.1 hf with rfl
          exact ⟨rfl, hpos, by simpa [save_to_sql] using Nat.le_of_lt h1, h5⟩
      constructor
      · simp only [List.map_append, List.map_cons, List.map_nil, h3, h2,
          List.length_append, List.length_cons, List.length_nil, save_to_sql]
        rw [List.range_succ]
      · intro i f hget hi
        rw [List.length_append, List.length_cons, List.length_nil] at hi
        have hilt : i < st.flushes.length := by
          have hbound : i < st.flushes.length + 1 := by omega
          omega
        rw [List.get?_append hilt] at hget
        exact (h4 f (List.get?_mem hget)).2.1

theorem parallel_extraction_truth_mem (L : List Nat) (B : Nat) (id : String)
    (files : List I3FileModel) (hB : 0 < B) :
    ∀ f ∈ (parallel_extraction L B id files).1, ∀ t ∈ f.truth, t.2 ∈ L := by
  intro f hf
  exact ((parallel_extraction_facts L B id files hB).1 f hf).2.2.2

/-! ### The claims -/

/-- Claim C1: for every worker count `W ≥ 1`, the id allocation
`np.array_split(np.arange(0, 99999999, 1), W)` splits `[0, 99999999)` into
`W` disjoint, contiguous, monotonically increasing ranges whose union
(concatenation) is exactly `[0, 99999999)`, and every truth record a worker
flushes to a shard carries an `event_no` drawn from that worker's own
range. -/
theorem claim_C1 (W : Nat) (hW : 1 ≤ W) :
    (event_nos W).length = W ∧
    (event_nos W).flatten = List.range 99999999 ∧
    (∀ c ∈ event_nos W, ∃ s, c = List.range' s c.length) ∧
    List.Pairwise (fun a b => ∀ x ∈ a, ∀ y ∈ b, x < y) (event_nos W) ∧
    (∀ L ∈ event_nos W, ∀ B id files, 0 < B →
      ∀ f ∈ (parallel_extraction L B id files).1, ∀ t ∈ f.truth, t.2 ∈ L) := by
  have hlen : (event_nos W).length = W :=
    array_split_length (List.range 99999999) W
  have hflat : (event_nos W).flatten = List.range 99999999 :=
    array_split_flatten (List.range 99999999) W hW
  refine ⟨hlen, hflat, ?_, ?_, ?_⟩
  · intro c hc
    unfold event_nos array_split at hc
    rw [List.range_eq_range'] at hc
    exact takeChunks_range'_mem _ _ _ c hc
  · apply sorted_flatten_pairwise
    rw [hflat]
    exact List.pairwise_lt_range _
  · intro L hL B id files hB
    exact parallel_extraction_truth_mem L B id files hB

/-- Witness for C1 at worker count 2. -/
theorem claim_C1_witness :
    1 ≤ 2 ∧
    ((event_nos 2).length = 2 ∧
     (event_nos 2).flatten = List.range 99999999 ∧
     (∀ c ∈ event_nos 2, ∃ s, c = List.range' s c.length) ∧
     List.Pairwise (fun a b => ∀ x ∈ a, ∀ y ∈ b, x < y) (event_nos 2) ∧
     (∀ L ∈ event_nos 2, ∀ B id files, 0 < B →
       ∀ f ∈ (parallel_extraction L B id files).1, ∀ t ∈ f.truth, t.2 ∈ L)) :=
  ⟨by decide, claim_C1 2 (by decide)⟩

/-- Claim C7: with a positive batch threshold `B`, every shard a worker
writes carries the worker's id and between `1` and `B` truth rows, the
shard indices are fresh and consecutive (`0, 1, 2, ...` in flush order, so
every flush opens a new uniquely named file and no flush spans two files),
every shard except possibly the final end-of-input flush holds exactly `B`
truth rows, and the `i`-th shard file is named `worker-<id>-<i>.db`. -/
theorem claim_C7 (L : List Nat) (B : Nat) (id : String)
    (files : List I3FileModel) (hB : 0 < B) :
    (∀ f ∈ (parallel_extraction L B id files).1,
       f.id = id ∧ 1 ≤ f.truth.length ∧ f.truth.length ≤ B) ∧
    ((parallel_extraction L B id files).1.map Flush.output_count
       = List.range (parallel_extraction L B id files).1.length) ∧
    (∀ i f, (parallel_extraction L B id files).1.get? i = Option.some f →
       i + 1 < (parallel_extraction L B id files).1.length →
       f.truth.length = B) ∧
    (∀ i f, (parallel_extraction L B id files).1.get? i = Option.some f →
       shard_filename f = "worker-" ++ id ++ "-" ++ Nat.repr i ++ ".db") := by
  obtain ⟨ha, hb, hc⟩ := parallel_extraction_facts L B id files hB
  refine ⟨fun f hf => ⟨(ha f hf).1, (ha f hf).2.1, (ha f hf).2.2.1⟩, hb, hc, ?_⟩
  intro i f hget
  have hmem : f ∈ (parallel_extraction L B id files).1 := List.get?_mem hget
  have hi : i < (parallel_extraction L B id files).1.length :=
    (List.get?_eq_some.1 hget).1
  have hoc : f.output_count = i := by
    have h1 : ((parallel_extraction L B id files).1.map Flush.output_count).get? i
        = Option.some f.output_count := by
      rw [List.get?_map, hget]
      rfl
    rw [hb, List.get?_range hi] at h1
    exact (Option.some.inj h1).symm
  unfold shard_filename
  rw [hoc, (ha f hmem).1]

/-- Witness for C7 with batch threshold 2 on a worker that processes three
frames from one file. -/
theorem claim_C7_witness :
    0 < 2 ∧
    ((∀ f ∈ (parallel_extraction [0, 1, 2] 2 "0"
         [⟨false, [okFrame, okFrame, okFrame]⟩]).1,
       f.id = "0" ∧ 1 ≤ f.truth.length ∧ f.truth.length ≤ 2) ∧
     ((parallel_extraction [0, 1, 2] 2 "0"
         [⟨false, [okFrame, okFrame, okFrame]⟩]).1.map Flush.output_count
       = List.range (parallel_extraction [0, 1, 2] 2 "0"
           [⟨false, [okFrame, okFrame, okFrame]⟩]).1.length) ∧
     (∀ i f, (parallel_extraction [0, 1, 2] 2 "0"
         [⟨false, [okFrame, okFrame, okFrame]⟩]).1.get? i = Option.some f →
       i + 1 < (parallel_extraction [0, 1, 2] 2 "0"
           [⟨false, [okFrame, okFrame, okFrame]⟩]).1.length →
       f.truth.length = 2) ∧
     (∀ i f, (parallel_extraction [0, 1, 2] 2 "0"
         [⟨false, [okFrame, okFrame, okFrame]⟩]).1.get? i = Option.some f →
       shard_filename f = "worker-" ++ "0" ++ "-" ++ Nat.repr i ++ ".db")) :=
  ⟨by decide, claim_C7 [0, 1, 2] 2 "0" [⟨false, [okFrame, okFrame, okFrame]⟩]
    (by decide)⟩

/-- Claim C3 (amended): an exception inside `i3_file.pop_physics()` is
caught, the frame is skipped and the loop continues with the remaining
frames; but an exception raised while *extracting* a popped frame
(`process_frame` is outside the `try` block) is not caught and aborts the
worker on the spot, discarding the remaining frames. -/
theorem claim_C3 (L : List Nat) (B : Nat) (id : String) (st : WState)
    (rest : List PopEvent) (e : String) :
    runEvents L B id st (PopEvent.popError :: rest) = runEvents L B id st rest ∧
    processEvent L B id st (PopEvent.phys (Except.error e)) = Except.error e ∧
    runEvents L B id st (PopEvent.phys (Except.error e) :: rest)
      = (st, Option.some e) := by
  refine ⟨rfl, rfl, rfl⟩

/-- Counterexample to C3 as stated: a file whose first frame fails in
extraction makes the worker abort with the uncaught exception and produce
nothing, even though a later frame of the same file is fine — whereas the
same file without the failing frame yields a complete shard.  So a
per-frame extraction error does abort the whole file. -/
theorem claim_C3_counterexample :
    parallel_extraction [0, 1, 2] 5 "0"
        [⟨false, [extractionErrorFrame, okFrame]⟩]
      = ([], Option.some "ExtractionError") ∧
    parallel_extraction [0, 1, 2] 5 "0" [⟨false, [okFrame]⟩]
      = ([⟨"0", 0, [([("dom_x", PyVal.num 2)], 0)],
           [([("energy", PyVal.num 1)], 0)], []⟩], Option.none) :=
  ⟨rfl, rfl⟩

/-- Claim C8 (amended): a frame whose pulse-series fragment carries
`dom_x` with a null value contributes no pulsemap fragment, but its truth
fragment is still recorded with the next id of the worker's range and the
id counter advances exactly as for a non-empty frame.  A fragment with
`dom_x` *absent*, however, makes `isempty` raise an uncaught `KeyError`
that aborts the worker. -/
theorem claim_C8 (L : List Nat) (B : Nat) (id : String) (st : WState)
    (truths retros features : Extraction) (e : Nat)
    (hget : L[st.event_counter]? = Option.some e)
    (hf : features.lookup "dom_x" = Option.some PyVal.null) :
    (∃ st2,
      processEvent L B id st (PopEvent.phys (Except.ok (truths, features, retros)))
        = Except.ok st2 ∧
      st2.event_counter = st.event_counter + 1 ∧
      allFeatures st2 = allFeatures st ∧
      allTruth st2 = allTruth st ++ [(truths, e)]) ∧
    (∀ features2 : Extraction, features2.lookup "dom_x" = Option.none →
      processEvent L B id st (PopEvent.phys (Except.ok (truths, features2, retros)))
        = Except.error "KeyError") := by
  constructor
  · have hemp : isempty features = Except.ok true := by
      simp [isempty, hf]
    by_cases hr : 0 < retros.length <;>
      by_cases hlen : (st.truth_big ++ [(truths, e)]).length ≥ B
    · refine ⟨⟨st.event_counter + 1, [], [], [], st.output_count + 1,
        st.flushes ++ [save_to_sql st.feature_big (st.truth_big ++ [(truths, e)])
          (st.retro_big ++ [(retros, e)]) id st.output_count]⟩, ?_, rfl, ?_, ?_⟩
      · simp only [List.length_append, List.length_cons, List.length_nil] at hlen
        simp [processEvent, apply_event_no, hget, hemp, if_pos hr, if_pos hlen,
          save_to_sql]
      · simp [allFeatures, save_to_sql]
      · simp [allTruth, save_to_sql]
    · refine ⟨⟨st.event_counter + 1, st.feature_big, st.truth_big ++ [(truths, e)],
        st.retro_big ++ [(retros, e)], st.output_count, st.flushes⟩, ?_, rfl,
        ?_, ?_⟩
      · simp only [List.length_append, List.length_cons, List.length_nil] at hlen
        simp [processEvent, apply_event_no, hget, hemp, if_pos hr, if_neg hlen]
      · simp [allFeatures]
      · simp [allTruth]
    · refine ⟨⟨st.event_counter + 1, [], [], [], st.output_count + 1,
        st.flushes ++ [save_to_sql st.feature_big (st.truth_big ++ [(truths, e)])
          st.retro_big id st.output_count]⟩, ?_, rfl, ?_, ?_⟩
      · simp only [List.length_append, List.length_cons, List.length_nil] at hlen
        simp [processEvent, apply_event_no, hget, hemp, if_neg hr, if_pos hlen,
          save_to_sql]
      · simp [allFeatures, save_to_sql]
      · simp [allTruth, save_to_sql]
    · refine ⟨⟨st.event_counter + 1, st.feature_big, st.truth_big ++ [(truths, e)],
        st.retro_big, st.output_count, st.flushes⟩, ?_, rfl, ?_, ?_⟩
      · simp only [List.length_append, List.length_cons, List.length_nil] at hlen
        simp [processEvent, apply_event_no, hget, hemp, if_neg hr, if_neg hlen]
      · simp [allFeatures]
      · simp [allTruth]
  · intro features2 hf2
    simp only [processEvent, apply_event_no, hget, isempty, hf2]
    split
    · rename_i heq
      by_cases hr : 0 < retros.length
      · rw [if_pos hr] at heq
        exact absurd heq (by simp)
      · rw [if_neg hr] at heq
        exact absurd heq (by simp)
    · rfl

/-- Witness for C8: a concrete state about to process a null-`dom_x`
frame. -/
theorem claim_C8_witness :
    ([7, 8] : List Nat)[(initState).event_counter]? = Option.some 7 ∧
    ([("dom_x", PyVal.null)] : Extraction).lookup "dom_x"
      = Option.some PyVal.null ∧
    ((∃ st2,
      processEvent [7, 8] 5 "0" initState
          (PopEvent.phys (Except.ok
            ([("energy", PyVal.num 1)], [("dom_x", PyVal.null)], [])))
        = Except.ok st2 ∧
      st2.event_counter = initState.event_counter + 1 ∧
      allFeatures st2 = allFeatures initState ∧
      allTruth st2 = allTruth initState ++ [([("energy", PyVal.num 1)], 7)]) ∧
    (∀ features2 : Extraction, features2.lookup "dom_x" = Option.none →
      processEvent [7, 8] 5 "0" initState
          (PopEvent.phys (Except.ok
            ([("energy", PyVal.num 1)], features2, [])))
        = Except.error "KeyError")) :=
  ⟨by decide, by decide,
   claim_C8 [7, 8] 5 "0" initState [("energy", PyVal.num 1)] []
     [("dom_x", PyVal.null)] 7 (by decide) (by decide)⟩

/-- Counterexample to C8 as stated: a frame whose pulse fragment lacks the
`dom_x` key entirely ("absent") does not get its truth fragment recorded —
the worker aborts with `KeyError` and produces nothing. -/
theorem claim_C8_counterexample :
    parallel_extraction [0, 1] 5 "0" [⟨false, [noDomXFrame]⟩]
      = ([], Option.some "KeyError") := rfl

/-- Claim C4: a failure opening an event file or its calibration data is
fatal to that worker's remaining work — here the worker aborts before
touching its second, perfectly good file — but the failure does NOT
propagate to the orchestrator: `_processfiles` dispatches the pool with
`map_async`, never inspects the result, and proceeds to the merge step,
returning the same shape of outcome as for a successful run. -/
theorem claim_C4 :
    parallel_extraction [0, 1] 5 "0" [openFailFile, ⟨false, [okFrame]⟩]
      = ([], Option.some "OSError") ∧
    processfiles 2 5 (fun _ => openFailFile) [0]
        [([0], ⟨"p", ["file_a.i3.gz"], []⟩)] "rescue.gz" [".gz"]
      = Except.ok (Outcome.ranMerge [([], Option.some "OSError")]) := by
  exact ⟨rfl, by decide⟩

/-! ### Discovery lemmas -/

theorem levelLists_gcd_last (dirpath : String) (extensions : List String)
    (files : List String) :
    (levelLists dirpath extensions files).2.2
      = (levelLists dirpath extensions files).2.1.getLast? := by
  unfold levelLists
  have main : ∀ (fs : List String) (acc : List String × List String × Option String),
      acc.2.2 = acc.2.1.getLast? →
      (fs.foldl (levelStep dirpath extensions) acc).2.2
        = (fs.foldl (levelStep dirpath extensions) acc).2.1.getLast? := by
    intro fs
    induction fs with
    | nil => intro acc hacc; exact hacc
    | cons f rest ih =>
      intro acc hacc
      simp only [List.foldl_cons]
      apply ih
      unfold levelStep
      by_cases hext : has_extension f extensions
      · rw [if_pos hext]
        by_cases hi3 : is_i3 f
        · rw [if_pos hi3]
          exact hacc
        · rw [if_neg hi3]
          simp [List.getLast?_concat]
      · rw [if_neg hext]
        exact hacc
  exact main files ([], [], Option.none) rfl

theorem levelPairs_eq (gcd_rescue dirpath : String) (extensions : List String)
    (files : List String) :
    level_gcd_list gcd_rescue dirpath extensions files
      = level_gcds dirpath extensions files ++
        List.replicate ((level_i3s dirpath extensions files).length
            - (level_gcds dirpath extensions files).length)
          ((level_gcds dirpath extensions files).getLast?.getD gcd_rescue) := by
  unfold level_gcd_list levelPairs level_i3s level_gcds
  rw [← levelLists_gcd_last]

theorem level_facts (gcd_rescue dirpath : String) (extensions : List String)
    (files : List String) :
    ((level_gcds dirpath extensions files).length
        ≤ (level_i3s dirpath extensions files).length →
      (level_gcd_list gcd_rescue dirpath extensions files).length
        = (level_i3s dirpath extensions files).length) ∧
    (level_gcds dirpath extensions files = [] →
      level_gcd_list gcd_rescue dirpath extensions files
        = List.replicate (level_i3s dirpath extensions files).length gcd_rescue) ∧
    (∀ g, level_gcds dirpath extensions files = [g] →
      1 ≤ (level_i3s dirpath extensions files).length →
      level_gcd_list gcd_rescue dirpath extensions files
        = List.replicate (level_i3s dirpath extensions files).length g) ∧
    (∀ i, i < (level_gcds dirpath extensions files).length →
      (level_gcd_list gcd_rescue dirpath extensions files)[i]?
        = (level_gcds dirpath extensions files)[i]?) ∧
    (∀ i, (level_gcds dirpath extensions files).length ≤ i →
      i < (level_i3s dirpath extensions files).length →
      (level_gcd_list gcd_rescue dirpath extensions files)[i]?
        = Option.some
            ((level_gcds dirpath extensions files).getLast?.getD gcd_rescue)) := by
  rw [levelPairs_eq]
  refine ⟨?_, ?_, ?_, ?_, ?_⟩
  · intro hmn
    rw [List.length_append, List.length_replicate]
    omega
  · intro hnil
    rw [hnil]
    simp
  · intro g hg h1
    rw [hg]
    simp only [List.getLast?_singleton, Option.getD_some, List.length_cons,
      List.length_nil]
    cases hn : (level_i3s dirpath extensions files).length with
    | zero => omega
    | succ k =>
      rw [List.replicate_succ]
      simp
  · intro i hi
    rw [List.getElem?_append_left hi]
  · intro i him hin
    rw [List.getElem?_append_right him, List.getElem?_replicate]
    rw [if_pos (by omega)]

theorem range_filterMap_get (l : List α) :
    (List.range l.length).filterMap (fun i => l.get? i) = l := by
  induction l with
  | nil => rfl
  | cons a t ih =>
    rw [List.length_cons, List.range_succ_eq_map, List.filterMap_cons]
    simp only [List.get?_cons_zero]
    rw [List.filterMap_map]
    have hcomp : ((fun i => (a :: t).get? i) ∘ Nat.succ) = fun i => t.get? i := by
      funext i
      simp [List.get?_cons_succ]
    rw [hcomp, ih]

theorem perm_filterMap_get (p : List Nat) (l : List α)
    (hp : p.Perm (List.range l.length)) :
    (p.filterMap (fun i => l.get? i)).Perm l := by
  have h := List.Perm.filterMap (fun i => l.get? i) hp
  rw [range_filterMap_get] at h
  exact h

theorem zip_map_fst_snd (l : List (α × β)) :
    (l.map Prod.fst).zip (l.map Prod.snd) = l := by
  induction l with
  | nil => rfl
  | cons a t ih => simp [ih]

theorem pairwiseshuffle_ok (perm : List Nat) (files_list gcd_list : List String)
    (hlen : files_list.length = gcd_list.length)
    (hperm : perm.Perm (List.range (files_list.zip gcd_list).length)) :
    ∃ fl gl, pairwiseshuffle perm files_list gcd_list = Except.ok (fl, gl) ∧
      fl.length = gl.length ∧
      (fl.zip gl).Perm (files_list.zip gcd_list) := by
  unfold pairwiseshuffle
  rw [if_pos hlen]
  refine ⟨_, _, rfl, by simp, ?_⟩
  rw [zip_map_fst_snd]
  exact perm_filterMap_get perm (files_list.zip gcd_list) hperm

theorem core_levels (d : Dir) (extensions : List String) (gcd_rescue : String) :
    find_i3_files_core d extensions gcd_rescue
      = (((dirLevels d).map
            (fun lv => level_i3s lv.1 extensions lv.2)).flatten,
         ((dirLevels d).map
            (fun lv => level_gcd_list gcd_rescue lv.1 extensions lv.2)).flatten) := by
  unfold find_i3_files_core
  have main : ∀ (L : List (String × List String)) (acc : List String × List String),
      L.foldl (fun acc level =>
          match levelPairs gcd_rescue level.1 extensions level.2 with
          | (i3files, gcds) => (acc.1 ++ i3files, acc.2 ++ gcds)) acc
        = (acc.1 ++ (L.map (fun lv => level_i3s lv.1 extensions lv.2)).flatten,
           acc.2 ++ (L.map
             (fun lv => level_gcd_list gcd_rescue lv.1 extensions lv.2)).flatten) := by
    intro L
    induction L with
    | nil => intro acc; simp
    | cons lv rest ih =>
      intro acc
      rw [List.foldl_cons, ih]
      simp [level_i3s, level_gcd_list, levelPairs, List.append_assoc]
  rw [main]
  simp

theorem core_len_eq (d : Dir) (extensions : List String) (gcd_rescue : String)
    (hcnt : ∀ lv ∈ dirLevels d,
      (level_gcds lv.1 extensions lv.2).length
        ≤ (level_i3s lv.1 extensions lv.2).length) :
    (find_i3_files_core d extensions gcd_rescue).1.length
      = (find_i3_files_core d extensions gcd_rescue).2.length := by
  rw [core_levels]
  simp only [List.length_flatten, List.map_map]
  congr 1
  apply List.map_congr_left
  intro lv hlv
  exact ((level_facts gcd_rescue lv.1 extensions lv.2).1 (hcnt lv hlv)).symm

/-- Claim C5 (amended): per directory level the pairing is positional, not
a broadcast of one file: with zero discovered calibration files every event
file is paired with the rescue path; with exactly one it is broadcast to
all; in general the first `k` event files pair with the `k` discovered
calibration files in listing order and the surplus event files all receive
the *last* discovered one.  The two lists are equally long provided no
level yields more calibration files than event files, in which case the
shuffled discovery output is exactly a permutation of the positional
pairing. -/
theorem claim_C5 (d : Dir) (extensions : List String) (gcd_rescue : String)
    (perm : List Nat)
    (hcnt : ∀ lv ∈ dirLevels d,
      (level_gcds lv.1 extensions lv.2).length
        ≤ (level_i3s lv.1 extensions lv.2).length)
    (hperm : perm.Perm (List.range
      ((find_i3_files_core d extensions gcd_rescue).1.zip
        (find_i3_files_core d extensions gcd_rescue).2).length)) :
    (∀ lv ∈ dirLevels d,
      (level_gcd_list gcd_rescue lv.1 extensions lv.2).length
        = (level_i3s lv.1 extensions lv.2).length ∧
      (level_gcds lv.1 extensions lv.2 = [] →
        level_gcd_list gcd_rescue lv.1 extensions lv.2
          = List.replicate (level_i3s lv.1 extensions lv.2).length gcd_rescue) ∧
      (∀ g, level_gcds lv.1 extensions lv.2 = [g] →
        1 ≤ (level_i3s lv.1 extensions lv.2).length →
        level_gcd_list gcd_rescue lv.1 extensions lv.2
          = List.replicate (level_i3s lv.1 extensions lv.2).length g) ∧
      (∀ i, i < (level_gcds lv.1 extensions lv.2).length →
        (level_gcd_list gcd_rescue lv.1 extensions lv.2)[i]?
          = (level_gcds lv.1 extensions lv.2)[i]?) ∧
      (∀ i, (level_gcds lv.1 extensions lv.2).length ≤ i →
        i < (level_i3s lv.1 extensions lv.2).length →
        (level_gcd_list gcd_rescue lv.1 extensions lv.2)[i]?
          = Option.some
              ((level_gcds lv.1 extensions lv.2).getLast?.getD gcd_rescue))) ∧
    (∃ fl gl, find_i3_files perm d extensions gcd_rescue = Except.ok (fl, gl) ∧
      fl.length = gl.length ∧
      (fl.zip gl).Perm ((find_i3_files_core d extensions gcd_rescue).1.zip
        (find_i3_files_core d extensions gcd_rescue).2)) := by
  constructor
  · intro lv hlv
    obtain ⟨ha, hb, hc, hd, he⟩ := level_facts gcd_rescue lv.1 extensions lv.2
    exact ⟨ha (hcnt lv hlv), hb, hc, hd, he⟩
  · have hlen := core_len_eq d extensions gcd_rescue hcnt
    obtain ⟨fl, gl, heq, hl, hp⟩ := pairwiseshuffle_ok perm
      (find_i3_files_core d extensions gcd_rescue).1
      (find_i3_files_core d extensions gcd_rescue).2 hlen hperm
    refine ⟨fl, gl, ?_, hl, hp⟩
    unfold find_i3_files
    exact heq

/-- Witness for C5 on a directory with two event files, one root gcd file
and one empty subfolder. -/
theorem claim_C5_witness :
    (∀ lv ∈ dirLevels ⟨"p", ["a.i3.gz", "b.i3.gz", "mygcd.gz"], [⟨"sub", []⟩]⟩,
      (level_gcds lv.1 [".gz"] lv.2).length
        ≤ (level_i3s lv.1 [".gz"] lv.2).length) ∧
    ([1, 0] : List Nat).Perm (List.range
      ((find_i3_files_core ⟨"p", ["a.i3.gz", "b.i3.gz", "mygcd.gz"],
          [⟨"sub", []⟩]⟩ [".gz"] "rescue.gz").1.zip
        (find_i3_files_core ⟨"p", ["a.i3.gz", "b.i3.gz", "mygcd.gz"],
          [⟨"sub", []⟩]⟩ [".gz"] "rescue.gz").2).length) ∧
    ((∀ lv ∈ dirLevels ⟨"p", ["a.i3.gz", "b.i3.gz", "mygcd.gz"], [⟨"sub", []⟩]⟩,
      (level_gcd_list "rescue.gz" lv.1 [".gz"] lv.2).length
        = (level_i3s lv.1 [".gz"] lv.2).length ∧
      (level_gcds lv.1 [".gz"] lv.2 = [] →
        level_gcd_list "rescue.gz" lv.1 [".gz"] lv.2
          = List.replicate (level_i3s lv.1 [".gz"] lv.2).length "rescue.gz") ∧
      (∀ g, level_gcds lv.1 [".gz"] lv.2 = [g] →
        1 ≤ (level_i3s lv.1 [".gz"] lv.2).length →
        level_gcd_list "rescue.gz" lv.1 [".gz"] lv.2
          = List.replicate (level_i3s lv.1 [".gz"] lv.2).length g) ∧
      (∀ i, i < (level_gcds lv.1 [".gz"] lv.2).length →
        (level_gcd_list "rescue.gz" lv.1 [".gz"] lv.2)[i]?
          = (level_gcds lv.1 [".gz"] lv.2)[i]?) ∧
      (∀ i, (level_gcds lv.1 [".gz"] lv.2).length ≤ i →
        i < (level_i3s lv.1 [".gz"] lv.2).length →
        (level_gcd_list "rescue.gz" lv.1 [".gz"] lv.2)[i]?
          = Option.some
              ((level_gcds lv.1 [".gz"] lv.2).getLast?.getD "rescue.gz"))) ∧
    (∃ fl gl, find_i3_files [1, 0] ⟨"p", ["a.i3.gz", "b.i3.gz", "mygcd.gz"],
          [⟨"sub", []⟩]⟩ [".gz"] "rescue.gz" = Except.ok (fl, gl) ∧
      fl.length = gl.length ∧
      (fl.zip gl).Perm ((find_i3_files_core ⟨"p", ["a.i3.gz", "b.i3.gz",
          "mygcd.gz"], [⟨"sub", []⟩]⟩ [".gz"] "rescue.gz").1.zip
        (find_i3_files_core ⟨"p", ["a.i3.gz", "b.i3.gz", "mygcd.gz"],
          [⟨"sub", []⟩]⟩ [".gz"] "rescue.gz").2))) :=
  ⟨by decide, by decide,
   claim_C5 ⟨"p", ["a.i3.gz", "b.i3.gz", "mygcd.gz"], [⟨"sub", []⟩]⟩ [".gz"]
     "rescue.gz" [1, 0] (by decide) (by decide)⟩

/-- Counterexample to C5 as stated: (i) a level with three event files and
two calibration files pairs the first event file with the first gcd and the
others with the second — no single discovered file is broadcast; (ii) a
level with one event file and two calibration files leaves the two lists
with different lengths, so the pairing shuffle raises `ValueError` and
discovery produces no lists at all. -/
theorem claim_C5_counterexample :
    find_i3_files_core
        ⟨"p", ["a.i3.gz", "b.i3.gz", "c.i3.gz", "gcd_one.gz", "gcd_two.gz"], []⟩
        [".gz"] "rescue.gz"
      = (["p/a.i3.gz", "p/b.i3.gz", "p/c.i3.gz"],
         ["p/gcd_one.gz", "p/gcd_two.gz", "p/gcd_two.gz"]) ∧
    ("p/gcd_one.gz" : String) ≠ "p/gcd_two.gz" ∧
    find_i3_files [0] ⟨"q", ["one.i3.gz", "gcd_one.gz", "gcd_two.gz"], []⟩
        [".gz"] "rescue.gz"
      = Except.error "ValueError" := by
  exact ⟨by decide, by decide, by decide⟩

/-! ### The zero-files run -/

theorem levelLists_no_match (dirpath : String) (extensions : List String)
    (files : List String)
    (h : ∀ f ∈ files, has_extension f extensions = false) :
    levelLists dirpath extensions files = ([], [], Option.none) := by
  unfold levelLists
  have main : ∀ (fs : List String) (acc : List String × List String × Option String),
      (∀ f ∈ fs, has_extension f extensions = false) →
      fs.foldl (levelStep dirpath extensions) acc = acc := by
    intro fs
    induction fs with
    | nil => intro acc _; rfl
    | cons f rest ih =>
      intro acc hall
      rw [List.foldl_cons]
      have hstep : levelStep dirpath extensions acc f = acc := by
        unfold levelStep
        rw [hall f (List.mem_cons_self f rest)]
        simp
      rw [hstep]
      exact ih acc (fun x hx => hall x (List.mem_cons_of_mem f hx))
  exact main files _ h

theorem find_i3_files_no_match (perm : List Nat) (d : Dir)
    (extensions : List String) (gcd_rescue : String)
    (h : ∀ lv ∈ dirLevels d, ∀ f ∈ lv.2, has_extension f extensions = false) :
    find_i3_files perm d extensions gcd_rescue = Except.ok ([], []) := by
  have hcore : find_i3_files_core d extensions gcd_rescue = ([], []) := by
    rw [core_levels]
    have h1 : ∀ lv ∈ dirLevels d, level_i3s lv.1 extensions lv.2 = [] := by
      intro lv hlv
      unfold level_i3s
      rw [levelLists_no_match lv.1 extensions lv.2 (h lv hlv)]
    have h2 : ∀ lv ∈ dirLevels d,
        level_gcd_list gcd_rescue lv.1 extensions lv.2 = [] := by
      intro lv hlv
      unfold level_gcd_list levelPairs
      rw [levelLists_no_match lv.1 extensions lv.2 (h lv hlv)]
      rfl
    rw [Prod.mk.injEq]
    constructor
    · rw [List.flatten_eq_nil_iff]
      intro l hl
      rw [List.mem_map] at hl
      obtain ⟨lv, hlv, rfl⟩ := hl
      exact h1 lv hlv
    · rw [List.flatten_eq_nil_iff]
      intro l hl
      rw [List.mem_map] at hl
      obtain ⟨lv, hlv, rfl⟩ := hl
      exact h2 lv hlv
  unfold find_i3_files
  rw [hcore]
  unfold pairwiseshuffle
  simp only [if_true]
  have hrows : perm.filterMap
      (fun i => (([] : List String).zip ([] : List String)).get? i) = [] := by
    induction perm with
    | nil => rfl
    | cons p rest ih => simp [List.filterMap_cons, ih]
  simp only [hrows]
  rfl

theorem find_files_loop_empty (gcd_rescue : String) (extensions : List String)
    (dirs : List (List Nat × Dir)) (acc1 acc2 : List String)
    (h : ∀ pd ∈ dirs, ∀ lv ∈ dirLevels pd.2, ∀ f ∈ lv.2,
      has_extension f extensions = false) :
    find_files_loop gcd_rescue extensions dirs acc1 acc2
      = Except.ok (acc1, acc2) := by
  induction dirs generalizing acc1 acc2 with
  | nil => rfl
  | cons pd rest ih =>
    unfold find_files_loop
    rw [find_i3_files_no_match pd.1 pd.2 extensions gcd_rescue
      (h pd (List.mem_cons_self pd rest))]
    simp only [List.append_nil]
    exact ih acc1 acc2 (fun x hx => h x (List.mem_cons_of_mem pd hx))

/-- Claim C9 (amended): when discovery finds no files with an accepted
extension at all, `find_files` returns the empty manifest, and
`_processfiles` stops with the no-files diagnostic: no worker is started,
the merge step is never entered, no database is created, and no exception
escapes.  (If a directory holds calibration files but no event files,
discovery instead crashes in `pairwiseshuffle` — see the
counterexample.) -/
theorem claim_C9 (workers B : Nat) (fs : String → I3FileModel)
    (gperm : List Nat) (dirs : List (List Nat × Dir)) (gcd_rescue : String)
    (extensions : List String)
    (hnone : ∀ pd ∈ dirs, ∀ lv ∈ dirLevels pd.2, ∀ f ∈ lv.2,
      has_extension f extensions = false) :
    find_files gperm dirs gcd_rescue extensions = Except.ok ([], []) ∧
    processfiles workers B fs gperm dirs gcd_rescue extensions
      = Except.ok Outcome.noFiles := by
  have hloop := find_files_loop_empty gcd_rescue extensions dirs [] [] hnone
  have hff : find_files gperm dirs gcd_rescue extensions = Except.ok ([], []) := by
    unfold find_files
    rw [hloop]
    rfl
  refine ⟨hff, ?_⟩
  unfold processfiles
  rw [hff]
  simp

/-- Witness for C9 on one directory holding only a text file. -/
theorem claim_C9_witness :
    (∀ pd ∈ [(([0] : List Nat), (⟨"p", ["readme.txt"], []⟩ : Dir))],
      ∀ lv ∈ dirLevels pd.2, ∀ f ∈ lv.2, has_extension f [".gz"] = false) ∧
    (find_files [0] [([0], ⟨"p", ["readme.txt"], []⟩)] "rescue.gz" [".gz"]
        = Except.ok ([], []) ∧
     processfiles 2 5 (fun _ => openFailFile) [0]
         [([0], ⟨"p", ["readme.txt"], []⟩)] "rescue.gz" [".gz"]
       = Except.ok Outcome.noFiles) :=
  ⟨by decide,
   claim_C9 2 5 (fun _ => openFailFile) [0] [([0], ⟨"p", ["readme.txt"], []⟩)]
     "rescue.gz" [".gz"] (by decide)⟩

/-- Counterexample to C9 as stated: a directory holding a single
calibration file and no event files is a run in which discovery finds zero
input files, yet the pipeline raises an unhandled `ValueError` from
`pairwiseshuffle` (the i3 list and the gcd list have lengths 0 and 1)
instead of reporting the no-files diagnostic. -/
theorem claim_C9_counterexample :
    find_i3_files_core ⟨"p", ["det_gcd.gz"], []⟩ [".gz"] "rescue.gz"
      = ([], ["p/det_gcd.gz"]) ∧
    processfiles 2 5 (fun _ => openFailFile) [0]
        [([0], ⟨"p", ["det_gcd.gz"], []⟩)] "rescue.gz" [".gz"]
      = Except.error "ValueError" := by
  exact ⟨by decide, by decide⟩

/-! ### Schema inference and merge lemmas -/

theorem firstRetro_mem (db_files : List ShardDB) (cols : List String)
    (h : firstRetro db_files = Option.some cols) :
    ∃ sh ∈ db_files, sh.retro = Option.some cols := by
  induction db_files with
  | nil => exact absurd h (by simp [firstRetro])
  | cons db rest ih =>
    unfold firstRetro at h
    rw [List.findSome?_cons] at h
    cases hdb : db.retro with
    | some c =>
      rw [hdb] at h
      cases h
      exact ⟨db, List.mem_cons_self db rest, hdb⟩
    | none =>
      rw [hdb] at h
      obtain ⟨sh, hsh, hret⟩ := ih h
      exact ⟨sh, List.mem_cons_of_mem db hsh, hret⟩

theorem retro_scan_eq (db_files : List ShardDB)
    (hcols : ∀ sh ∈ db_files, ∀ cols, sh.retro = Option.some cols →
      2 ≤ cols.length) :
    retro_scan db_files [] = (firstRetro db_files).getD [] := by
  induction db_files with
  | nil => rfl
  | cons db rest ih =>
    cases hdb : db.retro with
    | some cols =>
      have hlen : 2 ≤ cols.length :=
        hcols db (List.mem_cons_self db rest) cols hdb
      have hpos : cols.length > 0 := by omega
      simp [retro_scan, firstRetro, List.findSome?_cons, hdb, hpos]
    | none =>
      have htail := ih (fun sh hs => hcols sh (List.mem_cons_of_mem db hs))
      simp only [retro_scan, firstRetro, List.findSome?_cons, hdb]
      simpa [firstRetro] using htail

/-- Claim C2: over a non-empty shard list whose `RetroReco` tables (when
present) carry `event_no` plus at least one reconstruction column, schema
inference scans the shards in order until one with a `RetroReco` table is
found — not only the first shard — and the final database then contains a
`RetroReco` table with exactly that shard's column set; when no shard has
the table, no `RetroReco` table is created. -/
theorem claim_C2 (db_files : List ShardDB) (pulse_map : String)
    (h0 : db_files ≠ [])
    (hpm : pulse_map ≠ "RetroReco")
    (hcols : ∀ sh ∈ db_files, ∀ cols, sh.retro = Option.some cols →
      2 ≤ cols.length) :
    ∃ tc pc rc, extract_column_names db_files = Option.some (tc, pc, rc) ∧
      (∀ cols, firstRetro db_files = Option.some cols →
        rc = cols ∧
        (⟨"RetroReco", cols.map (fun column => columnDecl column false)⟩ :
            CreatedTable)
          ∈ (create_empty_tables pulse_map tc pc rc).tables) ∧
      (firstRetro db_files = Option.none →
        ∀ t ∈ (create_empty_tables pulse_map tc pc rc).tables,
          t.table_name ≠ "RetroReco") := by
  cases db_files with
  | nil => exact absurd rfl h0
  | cons db rest =>
    refine ⟨db.truth_columns, db.pulse_map_columns,
      retro_scan (db :: rest) [], rfl, ?_, ?_⟩
    · intro cols hfirst
      have hrc : retro_scan (db :: rest) [] = cols := by
        rw [retro_scan_eq (db :: rest) hcols, hfirst]
        rfl
      refine ⟨hrc, ?_⟩
      have hlen : 2 ≤ cols.length := by
        obtain ⟨sh, hsh, hret⟩ := firstRetro_mem (db :: rest) cols hfirst
        exact hcols sh hsh cols hret
      rw [hrc]
      have hgt : cols.length > 1 := by omega
      simp [create_empty_tables, create_table, hgt]
    · intro hfirst t ht
      have hrc : retro_scan (db :: rest) [] = [] := by
        rw [retro_scan_eq (db :: rest) hcols, hfirst]
        rfl
      rw [hrc] at ht
      have hnot : ¬ (([] : List String).length > 1) := by simp
      simp only [create_empty_tables] at ht
      rw [if_neg hnot] at ht
      rcases List.mem_cons.1 ht with rfl | ht2
      · simp only [create_table]
        decide
      · rcases List.mem_singleton.1 ht2 with rfl
        simpa [create_table] using hpm

/-- Witness for C2: the first shard has no `RetroReco` table, the second
does; inference recovers the second shard's schema. -/
theorem claim_C2_witness :
    ((⟨["event_no", "energy"], ["event_no", "dom_x"], Option.none⟩ ::
        [⟨["event_no", "energy"], ["event_no", "dom_x"],
          Option.some ["event_no", "azimuth"]⟩] : List ShardDB) ≠ []) ∧
    (("SRTInIcePulses" : String) ≠ "RetroReco") ∧
    (∀ sh ∈ (⟨["event_no", "energy"], ["event_no", "dom_x"], Option.none⟩ ::
        [⟨["event_no", "energy"], ["event_no", "dom_x"],
          Option.some ["event_no", "azimuth"]⟩] : List ShardDB),
      ∀ cols, sh.retro = Option.some cols → 2 ≤ cols.length) ∧
    (∃ tc pc rc, extract_column_names
        (⟨["event_no", "energy"], ["event_no", "dom_x"], Option.none⟩ ::
          [⟨["event_no", "energy"], ["event_no", "dom_x"],
            Option.some ["event_no", "azimuth"]⟩]) = Option.some (tc, pc, rc) ∧
      (∀ cols, firstRetro
          (⟨["event_no", "energy"], ["event_no", "dom_x"], Option.none⟩ ::
            [⟨["event_no", "energy"], ["event_no", "dom_x"],
              Option.some ["event_no", "azimuth"]⟩]) = Option.some cols →
        rc = cols ∧
        (⟨"RetroReco", cols.map (fun column => columnDecl column false)⟩ :
            CreatedTable)
          ∈ (create_empty_tables "SRTInIcePulses" tc pc rc).tables) ∧
      (firstRetro
          (⟨["event_no", "energy"], ["event_no", "dom_x"], Option.none⟩ ::
            [⟨["event_no", "energy"], ["event_no", "dom_x"],
              Option.some ["event_no", "azimuth"]⟩]) = Option.none →
        ∀ t ∈ (create_empty_tables "SRTInIcePulses" tc pc rc).tables,
          t.table_name ≠ "RetroReco")) :=
  ⟨by decide, by decide, by decide,
   claim_C2 (⟨["event_no", "energy"], ["event_no", "dom_x"], Option.none⟩ ::
       [⟨["event_no", "energy"], ["event_no", "dom_x"],
         Option.some ["event_no", "azimuth"]⟩]) "SRTInIcePulses"
     (by decide) (by decide) (by decide)⟩

/-- Claim C6: the final schema declares the truth table with
`event_no INTEGER PRIMARY KEY NOT NULL` and every other column `FLOAT`;
the pulsemap table declares `event_no NOT NULL` (no primary key) with
every other column `FLOAT`; and exactly one secondary index is created,
on the pulsemap table's `event_no` column. -/
theorem claim_C6 (pulse_map : String)
    (truth_columns pulse_map_columns retro_columns : List String) :
    ((⟨"truth", truth_columns.map (fun column => columnDecl column false)⟩ :
        CreatedTable)
      ∈ (create_empty_tables pulse_map truth_columns pulse_map_columns
          retro_columns).tables) ∧
    ((create_empty_tables pulse_map truth_columns pulse_map_columns
        retro_columns).tables.getLast?
      = Option.some ⟨pulse_map,
          pulse_map_columns.map (fun column => columnDecl column true)⟩) ∧
    (∀ column ∈ truth_columns,
      (column = "event_no" →
        columnDecl column false = "event_no INTEGER PRIMARY KEY NOT NULL") ∧
      (column ≠ "event_no" → columnDecl column false = column ++ " FLOAT")) ∧
    (∀ column ∈ pulse_map_columns,
      (column = "event_no" → columnDecl column true = "event_no NOT NULL") ∧
      (column ≠ "event_no" → columnDecl column true = column ++ " FLOAT")) ∧
    strContains (columnDecl "event_no" true) "PRIMARY KEY" = false ∧
    (create_empty_tables pulse_map truth_columns pulse_map_columns
        retro_columns).indexes = [⟨pulse_map, "event_no"⟩] := by
  refine ⟨?_, ?_, ?_, ?_, by decide, ?_⟩
  · unfold create_empty_tables create_table
    by_cases hr : retro_columns.length > 1
    · rw [if_pos hr]
      simp
    · rw [if_neg hr]
      simp
  · unfold create_empty_tables create_table
    by_cases hr : retro_columns.length > 1
    · rw [if_pos hr]
      rfl
    · rw [if_neg hr]
      rfl
  · intro column _
    constructor
    · intro hc
      rw [hc]
      rfl
    · intro hc
      unfold columnDecl
      rw [if_neg hc]
  · intro column _
    constructor
    · intro hc
      rw [hc]
      rfl
    · intro hc
      unfold columnDecl
      rw [if_neg hc]
  · unfold create_empty_tables create_table attach_index
    by_cases hr : retro_columns.length > 1
    · rw [if_pos hr]
      rfl
    · rw [if_neg hr]
      rfl

/-- Witness for C6 at a concrete schema. -/
theorem claim_C6_witness :
    ((⟨"truth", (["event_no", "energy"].map
        (fun column => columnDecl column false))⟩ : CreatedTable)
      ∈ (create_empty_tables "SRT" ["event_no", "energy"]
          ["event_no", "dom_x"] []).tables) ∧
    ((create_empty_tables "SRT" ["event_no", "energy"] ["event_no", "dom_x"]
        []).tables.getLast?
      = Option.some ⟨"SRT", (["event_no", "dom_x"].map
          (fun column => columnDecl column true))⟩) ∧
    (∀ column ∈ ["event_no", "energy"],
      (column = "event_no" →
        columnDecl column false = "event_no INTEGER PRIMARY KEY NOT NULL") ∧
      (column ≠ "event_no" → columnDecl column false = column ++ " FLOAT")) ∧
    (∀ column ∈ ["event_no", "dom_x"],
      (column = "event_no" → columnDecl column true = "event_no NOT NULL") ∧
      (column ≠ "event_no" → columnDecl column true = column ++ " FLOAT")) ∧
    strContains (columnDecl "event_no" true) "PRIMARY KEY" = false ∧
    (create_empty_tables "SRT" ["event_no", "energy"] ["event_no", "dom_x"]
        []).indexes = [⟨"SRT", "event_no"⟩] :=
  claim_C6 "SRT" ["event_no", "energy"] ["event_no", "dom_x"] []

theorem insert_pk_rows_ok (rows : List Nat) :
    ∀ (table t : List Nat), insert_pk_rows table rows = Except.ok t →
    table.Nodup → t = table ++ rows ∧ t.Nodup := by
  induction rows with
  | nil =>
    intro table t h hnd
    unfold insert_pk_rows at h
    cases h
    exact ⟨(List.append_nil table).symm, hnd⟩
  | cons r rest ih =>
    intro table t h hnd
    unfold insert_pk_rows at h
    by_cases hr : r ∈ table
    · rw [if_pos hr] at h
      exact absurd h (by simp)
    · rw [if_neg hr] at h
      have hnd2 : (table ++ [r]).Nodup := by
        rw [List.nodup_append]
        exact ⟨hnd, List.nodup_singleton r, by simpa using hr⟩
      obtain ⟨heq, hnd3⟩ := ih (table ++ [r]) t h hnd2
      constructor
      · rw [heq, List.append_assoc]
        rfl
      · exact hnd3

theorem merge_retro_ok (shards : List (List Nat)) :
    ∀ (table t : List Nat), merge_retro shards table = Except.ok t →
    table.Nodup → t = table ++ shards.flatten ∧ t.Nodup := by
  induction shards with
  | nil =>
    intro table t h hnd
    unfold merge_retro at h
    cases h
    exact ⟨by simp, hnd⟩
  | cons rows rest ih =>
    intro table t h hnd
    unfold merge_retro at h
    cases hins : insert_pk_rows table rows with
    | error e =>
      rw [hins] at h
      exact absurd h (by simp)
    | ok t2 =>
      rw [hins] at h
      obtain ⟨heq2, hnd2⟩ := insert_pk_rows_ok rows table t2 hins hnd
      obtain ⟨heq3, hnd3⟩ := ih t2 t h hnd2
      constructor
      · rw [heq3, heq2, List.flatten_cons, List.append_assoc]
      · exact hnd3

/-- Claim C10: the `RetroReco` table is created with `is_pulse_map = False`,
i.e. with the truth-table convention — its `event_no` column is declared
`INTEGER PRIMARY KEY NOT NULL` — and consequently a merge whose shards
together contain two auxiliary rows with the same `event_no` fails with an
integrity error when the duplicate row is appended. -/
theorem claim_C10 (retro_columns : List String) (shards : List (List Nat))
    (hdup : ¬ shards.flatten.Nodup) :
    (create_table "RetroReco" retro_columns false).1.column_decls
      = (create_table "truth" retro_columns false).1.column_decls ∧
    columnDecl "event_no" false = "event_no INTEGER PRIMARY KEY NOT NULL" ∧
    (∀ pulse_map truth_columns pulse_map_columns, 1 < retro_columns.length →
      (⟨"RetroReco", retro_columns.map (fun column => columnDecl column false)⟩ :
          CreatedTable)
        ∈ (create_empty_tables pulse_map truth_columns pulse_map_columns
            retro_columns).tables) ∧
    (∃ e, merge_retro shards [] = Except.error e) := by
  refine ⟨rfl, rfl, ?_, ?_⟩
  · intro pulse_map truth_columns pulse_map_columns hlen
    unfold create_empty_tables create_table
    rw [if_pos hlen]
    simp
  · cases hm : merge_retro shards [] with
    | ok t =>
      obtain ⟨heq, hnd⟩ := merge_retro_ok shards [] t hm List.nodup_nil
      rw [heq] at hnd
      simp only [List.nil_append] at hnd
      exact absurd hnd hdup
    | error e => exact ⟨e, rfl⟩

/-- Witness for C10: two shards each holding the auxiliary row with
`event_no = 7`. -/
theorem claim_C10_witness :
    (¬ ([[7], [7]] : List (List Nat)).flatten.Nodup) ∧
    ((create_table "RetroReco" ["event_no", "azimuth"] false).1.column_decls
      = (create_table "truth" ["event_no", "azimuth"] false).1.column_decls ∧
    columnDecl "event_no" false = "event_no INTEGER PRIMARY KEY NOT NULL" ∧
    (∀ pulse_map truth_columns pulse_map_columns,
      1 < (["event_no", "azimuth"] : List String).length →
      (⟨"RetroReco", (["event_no", "azimuth"] : List String).map
          (fun column => columnDecl column false)⟩ : CreatedTable)
        ∈ (create_empty_tables pulse_map truth_columns pulse_map_columns
            ["event_no", "azimuth"]).tables) ∧
    (∃ e, merge_retro [[7], [7]] [] = Except.error e)) :=
  ⟨by decide, claim_C10 ["event_no", "azimuth"] [[7], [7]] (by decide)⟩

end Graphnet
